import Mathlib

/-!
Verification of the token-minting and webhook-authentication core of the
automation-hub repository (src/worker.ts and src/oidc-hub.ts), via a shallow
embedding in Lean.

The webhook authenticator `verifySignature` is embedded faithfully from
src/worker.ts, including the JavaScript quirks of its hex decoding:
the regex match of pairs, the lenient `parseInt(s, 16)` semantics
(leading whitespace, sign, 0x marker, case-insensitive digits, NaN on
failure), the NaN-to-zero coercion performed by Uint8Array, and the
possible TypeError when the regex match returns null (modelled as `none`).
The HMAC-SHA256 primitive itself is supplied by the runtime
(crypto.subtle), not by the repository, so it appears as an abstract
function argument producing the digest bytes.

The token issuer of src/oidc-hub.ts is embedded as `mintHandler`, with
the environment bindings as a structure, request bodies as option-valued
fields (JavaScript truthiness on strings made explicit), JSON objects as
association lists, and the jose signing library modelled by the payload
overrides its setters perform plus a duration parser for expiration
strings.
-/

namespace AutomationHub

/-- JavaScript whitespace characters skipped by parseInt (the common ASCII ones). -/
def isJsWhitespace (c : Char) : Bool :=
  c == ' ' || c == '\t' || c == '\n' || c == '\r' || c == '\x0b' || c == '\x0c'

/-- Value of a hexadecimal digit character, case-insensitive, as used by
JavaScript parseInt with radix 16. -/
def hexVal (c : Char) : Option Nat :=
  if 48 ≤ c.toNat ∧ c.toNat ≤ 57 then some (c.toNat - 48)
  else if 97 ≤ c.toNat ∧ c.toNat ≤ 102 then some (c.toNat - 87)
  else if 65 ≤ c.toNat ∧ c.toNat ≤ 70 then some (c.toNat - 55)
  else none

/-- Accumulate the maximal leading run of hex digits. -/
def parseHexAux (acc : Nat) : List Char → Nat
  | [] => acc
  | c :: rest =>
    match hexVal c with
    | some v => parseHexAux (16 * acc + v) rest
    | none => acc

/-- Parse the maximal leading run of hex digits; `none` when there is no digit
at all (the NaN case of parseInt). -/
def parseHexDigits : List Char → Option Nat
  | [] => none
  | c :: rest =>
    match hexVal c with
    | some v => some (parseHexAux v rest)
    | none => none

/-- Strip a leading `0x` or `0X` marker, as parseInt does for radix 16. -/
def strip0x (l : List Char) : List Char :=
  match l with
  | c0 :: c1 :: rest => if c0 = '0' ∧ (c1 = 'x' ∨ c1 = 'X') then rest else c0 :: c1 :: rest
  | _ => l

/-- Digits part of parseInt with radix 16, after whitespace and sign handling. -/
def parseIntHexCore (l : List Char) : Option Nat :=
  parseHexDigits (strip0x l)

/-- Sign handling of parseInt, applied after whitespace trimming. -/
def parseIntHexSigned : List Char → Option Int
  | [] => none
  | c :: rest =>
    if c = '-' then (parseIntHexCore rest).map (fun n => -(n : Int))
    else if c = '+' then (parseIntHexCore rest).map (fun n => (n : Int))
    else (parseIntHexCore (c :: rest)).map (fun n => (n : Int))

/-- JavaScript `parseInt(s, 16)`: skip leading whitespace, optional sign,
optional 0x marker, then the maximal run of hex digits; `none` models NaN. -/
def parseIntHex (s : List Char) : Option Int :=
  parseIntHexSigned (s.dropWhile isJsWhitespace)

/-- Coercion a JavaScript number undergoes when stored in a Uint8Array:
NaN becomes 0, other values are taken modulo 256. -/
def toUint8 (o : Option Int) : Nat :=
  match o with
  | none => 0
  | some i => (i % 256).toNat

/-- The global regex match `match(/.{1,2}/g)`: greedy runs of one or two
characters, where `.` does not match a newline. An empty result list models
the `null` return (no match anywhere). -/
def jsMatch : List Char → List (List Char)
  | [] => []
  | [c] => if c = '\n' then [] else [[c]]
  | c :: d :: rest =>
    if c = '\n' then jsMatch (d :: rest)
    else if d = '\n' then [c] :: jsMatch rest
    else [c, d] :: jsMatch rest

/-- verifySignature from src/worker.ts. The HMAC-SHA256 primitive is the
runtime-supplied `hmac`, taking the secret and the body and returning the
digest bytes. The result is `none` when the function throws (the non-null
assertion on the regex match), otherwise `some` of the boolean it returns. -/
def verifySignature (hmac : String → String → List Nat)
    (body sig secret : String) : Option Bool :=
  if sig.data.take 7 ≠ "sha256=".data then some false
  else
    let digest := hmac secret body
    let providedHex := sig.data.drop 7
    if providedHex.length ≠ 64 then some false
    else
      let chunks := jsMatch providedHex
      if chunks = [] then none
      else
        let providedBytes := chunks.map (fun ch => toUint8 (parseIntHex ch))
        if digest.length ≠ providedBytes.length then some false
        else some ((digest.zip providedBytes).foldl
          (fun acc p => acc ||| (p.1 ^^^ p.2)) 0 == 0)

/-- Lowercase hex digit for a nibble, used when a sender encodes a digest:
code 48 offsets the decimal digits, code 87 offsets the letters a to f. -/
def hexChar (n : Nat) : Char :=
  if n < 10 then Char.ofNat (48 + n) else Char.ofNat (87 + n)

/-- Lowercase hex encoding of a byte sequence, two characters per byte. -/
def hexEncode : List Nat → List Char
  | [] => []
  | b :: rest => hexChar (b / 16) :: hexChar (b % 16) :: hexEncode rest

/-- JavaScript truthiness of a possibly-undefined string: undefined and the
empty string are falsy. -/
def jsTruthyOpt : Option String → Bool
  | none => false
  | some s => !(s == "")

/-- Environment bindings of the oidc-hub worker (src/oidc-hub.ts). The two
booleans model the runtime key-material and signing primitives throwing:
keyLoadFails covers importPKCS8 and the thumbprint derivation, signFails a
failure inside the final sign call. -/
structure MintEnv where
  ISSUER_URL : String
  ALLOWED_AUDIENCE : Option String
  MINT_API_KEY : Option String
  KEY_ID : Option String
  TOKEN_EXPIRATION : Option String
  keyLoadFails : Bool
  signFails : Bool
deriving DecidableEq

/-- Parsed JSON body of a /mint request; claims objects are association
lists over an arbitrary value type. -/
structure MintBody (α : Type) where
  subject : Option String
  audience : Option String
  claims : Option (List (String × α))
deriving DecidableEq

/-- A value in the signed payload: the registered claims carry strings and
numbers, the caller claims carry their original values. -/
inductive ClaimVal (α : Type) where
  | str : String → ClaimVal α
  | num : Nat → ClaimVal α
  | custom : α → ClaimVal α
deriving DecidableEq

/-- Outcome of the /mint handler: a structured JSON error with its HTTP
status, or a signed token rendered as its payload plus the expires_in
string returned alongside it. -/
inductive MintResult (α : Type) where
  | err : Nat → String → MintResult α
  | ok : List (String × ClaimVal α) → String → MintResult α
deriving DecidableEq

/-- Setting a key on a JavaScript object, modelled on association lists:
the new binding replaces any existing binding of that key. -/
def objSet (m : List (String × β)) (k : String) (v : β) : List (String × β) :=
  (k, v) :: m.filter (fun p => p.1 ≠ k)

/-- Extraction of the bearer token from the Authorization header:
authHeader.startsWith of Bearer, then slice(7). -/
def apiKeyOf (authHeader : Option String) : Option String :=
  match authHeader with
  | some h => if h.data.take 7 = "Bearer ".data then some (String.mk (h.data.drop 7)) else none
  | none => none

/-- Modelled from the spec: the duration-string parser of the runtime JWT
library (jose) used by setExpirationTime, which the repository does not
contain. A count followed by a seconds, minutes, hours or days unit;
anything else makes the library throw (`none`). In particular the default
expiration string 15m denotes 900 seconds. -/
def durSecs (s : String) : Option Nat :=
  let digits := s.data.takeWhile (fun c => 48 ≤ c.toNat ∧ c.toNat ≤ 57)
  let rest := s.data.dropWhile (fun c => 48 ≤ c.toNat ∧ c.toNat ≤ 57)
  if digits = [] then none
  else
    let n := digits.foldl (fun a c => 10 * a + (c.toNat - 48)) 0
    match rest with
    | ['s'] => some n
    | ['m'] => some (60 * n)
    | ['h'] => some (3600 * n)
    | ['d'] => some (86400 * n)
    | _ => none

/-- env.TOKEN_EXPIRATION with the falsy fallback to 15m. -/
def resolvedExp (env : MintEnv) : String :=
  match env.TOKEN_EXPIRATION with
  | some e => if e = "" then "15m" else e
  | none => "15m"

/-- requestBody.audience falling back to env.ALLOWED_AUDIENCE when falsy. -/
def resolvedAudience (env : MintEnv) (body : MintBody α) : Option String :=
  if jsTruthyOpt body.audience then body.audience else env.ALLOWED_AUDIENCE

/-- The payload signed by the jose SignJWT chain: the spread caller claims,
then the setters overriding iat, iss, aud, sub and exp in call order. -/
def payloadOf (claims : List (String × ClaimVal α)) (iss aud subj : String)
    (now d : Nat) : List (String × ClaimVal α) :=
  objSet (objSet (objSet (objSet (objSet claims "iat" (.num now))
    "iss" (.str iss)) "aud" (.str aud)) "sub" (.str subj)) "exp" (.num (now + d))

/-- The /mint branch of the oidc-hub fetch handler, from the Authorization
check to the signed response. bodyParse is the outcome of request.json
(`none` when the body is not JSON); now is the epoch second used by
setIssuedAt. -/
def mintHandler (α : Type) (env : MintEnv) (authHeader : Option String)
    (bodyParse : Option (MintBody α)) (now : Nat) : MintResult α :=
  if jsTruthyOpt env.MINT_API_KEY = false then
    .err 503 "Service not configured: MINT_API_KEY required"
  else if jsTruthyOpt (apiKeyOf authHeader) = false ∨ apiKeyOf authHeader ≠ env.MINT_API_KEY then
    .err 401 "Unauthorized: Invalid or missing API key"
  else if env.keyLoadFails then
    .err 500 "Token minting failed"
  else
    match bodyParse with
    | none => .err 400 "Invalid request body: Expected JSON"
    | some body =>
      match body.subject with
      | none => .err 400 "Missing required field: subject"
      | some subj =>
        if subj = "" then .err 400 "Missing required field: subject"
        else
          match resolvedAudience env body with
          | none => .err 400 "Missing required field: audience (or set ALLOWED_AUDIENCE)"
          | some aud =>
            if aud = "" then .err 400 "Missing required field: audience (or set ALLOWED_AUDIENCE)"
            else
              match durSecs (resolvedExp env) with
              | none => .err 500 "Token minting failed"
              | some d =>
                if env.signFails then .err 500 "Token minting failed"
                else .ok (payloadOf ((body.claims.getD []).map
                  (fun p => (p.1, (ClaimVal.custom p.2 : ClaimVal α))))
                  env.ISSUER_URL aud subj now d) (resolvedExp env)

/-- The fixed error strings the mint handler can produce. -/
def mintErrorMessages : List String :=
  ["Service not configured: MINT_API_KEY required",
   "Unauthorized: Invalid or missing API key",
   "Token minting failed",
   "Invalid request body: Expected JSON",
   "Missing required field: subject",
   "Missing required field: audience (or set ALLOWED_AUDIENCE)"]

/-- Body of the JWKS endpoint response. -/
inductive JwksResp where
  | keys : String → JwksResp
  | errResp : String → JwksResp
deriving DecidableEq

/-- The jwks.json branch of the oidc-hub fetch handler: key material km on
success, the fixed generic message when the key primitives throw. -/
def jwksHandler (keyLoadFails : Bool) (km : String) : Nat × JwksResp :=
  if keyLoadFails then (500, .errResp "Failed to generate JWKS")
  else (200, .keys km)

/-- Body of a webhook worker response. -/
inductive WebhookResp where
  | errBody : String → WebhookResp
  | accepted : String → WebhookResp
deriving DecidableEq

/-- The tail of the webhook fetch handler in src/worker.ts, after the
signature check: JSON.parse of the body (an Except carrying the exception
message on failure), then dispatch on the event type. The catch block
serializes the exception message into the response body. -/
def webhookTail (α : Type) (parse : Except String α) (eventType : Option String)
    (handlePR : α → Nat × WebhookResp) : Nat × WebhookResp :=
  match parse with
  | .error m => (500, .errBody m)
  | .ok payload =>
    if eventType = some "pull_request" then handlePR payload
    else (202, .accepted ("Event " ++ eventType.getD "null" ++ " received."))

/-- The character obtained by flipping one bit of the code of c. -/
def flipBit (c : Char) (b : Fin 8) : Char :=
  Char.ofNat (c.toNat ^^^ 2 ^ (b : Nat))

/-- A runtime HMAC oracle whose digest is 32 zero bytes, for concrete runs. -/
def hmacZero : String → String → List Nat := fun _ _ => List.replicate 32 0

/-- A runtime HMAC oracle whose digest starts with byte 0xab. -/
def hmacAb : String → String → List Nat := fun _ _ => 171 :: List.replicate 31 0

/-- A runtime HMAC oracle whose digest starts with byte 0xcd. -/
def hmacCd : String → String → List Nat := fun _ _ => 205 :: List.replicate 31 0

/-- A deployment with no MINT_API_KEY configured. -/
def envNoKey : MintEnv := ⟨"https://i", none, none, none, none, false, false⟩

/-- A healthy deployment with MINT_API_KEY k, no default audience, default
expiration. -/
def envK : MintEnv := ⟨"https://i", none, some "k", none, none, false, false⟩

/-- A plain mint request body naming subject and audience. -/
def bodySvc : MintBody Nat := ⟨some "svc-a", some "svc-b", none⟩

/-- A mint request body carrying one custom claim. -/
def bodyRole : MintBody Nat := ⟨some "svc-a", some "svc-b", some [("role", 7)]⟩

/-- The payload minted for bodySvc under envK at epoch second 0. -/
def payloadSvc : List (String × ClaimVal Nat) :=
  [("exp", .num 900), ("sub", .str "svc-a"), ("aud", .str "svc-b"),
   ("iss", .str "https://i"), ("iat", .num 0)]

/-- The payload minted for bodyRole under envK at epoch second 5. -/
def payloadRole : List (String × ClaimVal Nat) :=
  [("exp", .num 905), ("sub", .str "svc-a"), ("aud", .str "svc-b"),
   ("iss", .str "https://i"), ("iat", .num 5), ("role", .custom 7)]

theorem mk_data (l : List Char) : (String.mk l).data = l := rfl

theorem verify_of_take_ne (hmac : String → String → List Nat) (body sig secret : String)
    (h : sig.data.take 7 ≠ "sha256=".data) :
    verifySignature hmac body sig secret = some false := by
  unfold verifySignature
  rw [if_pos h]

theorem verify_of_len_ne (hmac : String → String → List Nat) (body sig secret : String)
    (h : (sig.data.drop 7).length ≠ 64) :
    verifySignature hmac body sig secret = some false := by
  unfold verifySignature
  by_cases h1 : sig.data.take 7 ≠ "sha256=".data
  · rw [if_pos h1]
  · rw [if_neg h1, if_pos h]

theorem hexEncode_length (l : List Nat) : (hexEncode l).length = 2 * l.length := by
  induction l with
  | nil => rfl
  | cons b t ih => simp [hexEncode, ih]; omega

theorem hexChar_props (n : Nat) (h : n < 16) :
    hexVal (hexChar n) = some n ∧ hexChar n ≠ '\n' ∧ isJsWhitespace (hexChar n) = false ∧
    hexChar n ≠ '-' ∧ hexChar n ≠ '+' ∧ hexChar n ≠ 'x' ∧ hexChar n ≠ 'X' := by
  interval_cases n <;> decide

theorem jsMatch_hexEncode (l : List Nat) (h : ∀ b ∈ l, b < 256) :
    jsMatch (hexEncode l) = l.map (fun b => [hexChar (b / 16), hexChar (b % 16)]) := by
  induction l with
  | nil => rfl
  | cons b t ih =>
    have hb : b < 256 := h b (by simp)
    have h1 : b / 16 < 16 := by omega
    have h2 : b % 16 < 16 := by omega
    have ih' := ih (fun x hx => h x (List.mem_cons_of_mem _ hx))
    simp [hexEncode, jsMatch, (hexChar_props _ h1).2.1, (hexChar_props _ h2).2.1, ih']

theorem decodePair (b : Nat) (hb : b < 256) :
    toUint8 (parseIntHex [hexChar (b / 16), hexChar (b % 16)]) = b := by
  have h1 : b / 16 < 16 := by omega
  have h2 : b % 16 < 16 := by omega
  obtain ⟨hv1, -, hw1, hm1, hp1, -, -⟩ := hexChar_props _ h1
  obtain ⟨hv2, -, hw2, -, -, hx2, hX2⟩ := hexChar_props _ h2
  unfold parseIntHex
  rw [List.dropWhile_cons_of_neg (by simp [hw1])]
  rw [parseIntHexSigned, if_neg hm1, if_neg hp1]
  unfold parseIntHexCore
  rw [show strip0x [hexChar (b / 16), hexChar (b % 16)] =
        [hexChar (b / 16), hexChar (b % 16)] by simp [strip0x, hx2, hX2]]
  simp only [parseHexDigits, parseHexAux, hv1, hv2, Option.map_some']
  simp [toUint8]
  omega

theorem fold_xor_self (l : List Nat) :
    (l.zip l).foldl (fun acc p => acc ||| (p.1 ^^^ p.2)) 0 = 0 := by
  induction l with
  | nil => rfl
  | cons a t ih => simpa [List.zip_cons_cons, Nat.xor_self] using ih

theorem jsMatch_replicate_newline (n : Nat) : jsMatch (List.replicate n '\n') = [] := by
  induction n with
  | zero => rfl
  | succ m ih =>
    cases m with
    | zero => rfl
    | succ k =>
      have hrep : List.replicate (k + 2) '\n' = '\n' :: '\n' :: List.replicate k '\n' := rfl
      rw [hrep, jsMatch]
      simp only [if_pos rfl]
      rw [← List.replicate_succ]
      exact ih

/-- C1: for every body B and secret S, verifying B against the claimed
signature made of the sha256= tag followed by the lowercase hex encoding of
the HMAC-SHA256 digest of B under S (a 32-byte digest from the runtime
primitive) succeeds: the round trip of signing then verifying accepts. -/
theorem verify_roundtrip (hmac : String → String → List Nat) (body secret : String)
    (h32 : (hmac secret body).length = 32)
    (hbyte : ∀ b ∈ hmac secret body, b < 256) :
    verifySignature hmac body
      (String.mk ("sha256=".data ++ hexEncode (hmac secret body))) secret = some true := by
  have hplen : ("sha256=".data : List Char).length = 7 := rfl
  have htake : (("sha256=".data ++ hexEncode (hmac secret body)) : List Char).take 7 =
      "sha256=".data := List.take_left' hplen
  have hdrop : (("sha256=".data ++ hexEncode (hmac secret body)) : List Char).drop 7 =
      hexEncode (hmac secret body) := List.drop_left' hplen
  have hne : hmac secret body ≠ [] := by
    intro hnil
    rw [hnil] at h32
    simp at h32
  unfold verifySignature
  rw [mk_data, htake, hdrop]
  rw [if_neg (by simp)]
  rw [if_neg (by rw [hexEncode_length, h32]; decide)]
  rw [jsMatch_hexEncode _ hbyte]
  rw [if_neg (by simp [hne])]
  rw [List.map_map]
  have hdecode : (hmac secret body).map
      ((fun ch => toUint8 (parseIntHex ch)) ∘ fun b => [hexChar (b / 16), hexChar (b % 16)]) =
      hmac secret body := by
    rw [show ((fun ch => toUint8 (parseIntHex ch)) ∘ fun b => [hexChar (b / 16), hexChar (b % 16)]) =
        fun b => toUint8 (parseIntHex [hexChar (b / 16), hexChar (b % 16)]) from rfl]
    rw [List.map_congr_left (fun b hbm => decodePair b (hbyte b hbm))]
    exact List.map_id _
  rw [hdecode]
  rw [if_neg (by simp)]
  rw [fold_xor_self]
  rfl

/-- C1 witness: the round trip accepts on a concrete 32-byte digest. -/
theorem verify_roundtrip_witness :
    (hmacZero "s" "b").length = 32 ∧ (∀ x ∈ hmacZero "s" "b", x < 256) ∧
    verifySignature hmacZero "b"
      (String.mk ("sha256=".data ++ hexEncode (hmacZero "s" "b"))) "s" = some true :=
  ⟨by decide, by decide, verify_roundtrip hmacZero "b" "s" (by decide) (by decide)⟩

/-- C2 counterexample: the claimed signature made of the sha256= tag followed
by 64 newline characters is not of the tag-plus-64-hex-characters shape (a
newline is no hex digit), yet verify does not return false on it: the pair
regex match returns null and the non-null assertion makes the function throw,
modelled as `none`. -/
theorem verify_newline_throws_cex :
    verifySignature hmacZero "" (String.mk ("sha256=".data ++ List.replicate 64 '\n')) "s"
      = none ∧ hexVal '\n' = none := by
  constructor
  · rfl
  · rfl

/-- C2 amended: verify returns false, without throwing, on every claimed
signature whose first seven characters are not the sha256= tag or whose
remainder after that tag is not exactly 64 characters long; however a
64-character remainder consisting entirely of newlines makes verify throw
instead of returning false. -/
theorem verify_malformed_shape :
    (∀ (hmac : String → String → List Nat) (body secret sig : String),
        sig.data.take 7 ≠ "sha256=".data ∨ (sig.data.drop 7).length ≠ 64 →
        verifySignature hmac body sig secret = some false) ∧
    (∀ (hmac : String → String → List Nat) (body secret : String),
        verifySignature hmac body
          (String.mk ("sha256=".data ++ List.replicate 64 '\n')) secret = none) := by
  constructor
  · intro hmac body secret sig h
    rcases h with h | h
    · exact verify_of_take_ne hmac body sig secret h
    · exact verify_of_len_ne hmac body sig secret h
  · intro hmac body secret
    have hplen : ("sha256=".data : List Char).length = 7 := rfl
    unfold verifySignature
    rw [mk_data, List.take_left' hplen, List.drop_left' hplen]
    rw [if_neg (by simp)]
    rw [if_neg (by simp)]
    rw [jsMatch_replicate_newline]
    rw [if_pos rfl]

/-- C2 witness: a malformed signature is rejected with false on a concrete
input. -/
theorem verify_malformed_shape_witness :
    verifySignature hmacZero "b" "xx" "s" = some false :=
  verify_malformed_shape.1 hmacZero "b" "s" "xx" (Or.inl (by decide))

/-- C9 counterexample: under a digest starting with byte 0xab, the lowercase
signature verifies; flipping the single bit 0x20 in its eighth character,
turning the hex digit a into A, yields a different string that verify still
accepts, because the parseInt-based decoding is case-insensitive. -/
theorem verify_case_flip_cex :
    verifySignature hmacAb "b"
      "sha256=ab00000000000000000000000000000000000000000000000000000000000000" "s"
      = some true ∧
    verifySignature hmacAb "b"
      "sha256=Ab00000000000000000000000000000000000000000000000000000000000000" "s"
      = some true ∧
    ("sha256=ab00000000000000000000000000000000000000000000000000000000000000".data.zip
      "sha256=Ab00000000000000000000000000000000000000000000000000000000000000".data).filter
        (fun p => p.1 ≠ p.2) = [('a', 'A')] ∧
    ('a'.toNat ^^^ 'A'.toNat) = 32 := by
  refine ⟨by decide, by decide, by decide, by decide⟩

/-- C9 amended: flipping any single bit of any of the seven tag characters of
a claimed signature yields an input on which verify returns false; but a
single-bit change inside the 64-character hex remainder need not be rejected:
flipping the case bit of a hex letter produces a different signature string
that verify still accepts. -/
theorem verify_bit_flip :
    (∀ (hmac : String → String → List Nat) (body secret : String) (suffix : List Char)
       (i : Fin 7) (b : Fin 8),
      verifySignature hmac body
        (String.mk (("sha256=".data.set i (flipBit ("sha256=".data.getD i ' ') b)) ++ suffix))
        secret = some false) ∧
    (verifySignature hmacCd "payload"
      "sha256=cd00000000000000000000000000000000000000000000000000000000000000" "topsecret"
      = some true ∧
     verifySignature hmacCd "payload"
      "sha256=Cd00000000000000000000000000000000000000000000000000000000000000" "topsecret"
      = some true ∧
     ('c'.toNat ^^^ 'C'.toNat) = 32) := by
  constructor
  · intro hmac body secret suffix i b
    apply verify_of_take_ne
    rw [mk_data]
    rw [List.take_left' (by simp)]
    fin_cases i <;> fin_cases b <;> decide
  · exact ⟨by decide, by decide, by decide⟩

theorem lookup_skip {β : Type} (k a : String) (b : β) (t : List (String × β)) (h : k ≠ a) :
    List.lookup k ((a, b) :: t) = List.lookup k t := by
  rw [List.lookup_cons, show (k == a) = false from beq_eq_false_iff_ne.mpr h]

theorem lookup_head {β : Type} (k : String) (b : β) (t : List (String × β)) :
    List.lookup k ((k, b) :: t) = some b := by
  rw [List.lookup_cons, show (k == k) = true from beq_self_eq_true k]

theorem lookup_filter_ne {β : Type} (m : List (String × β)) (k k' : String) (h : k' ≠ k) :
    List.lookup k' (m.filter (fun p => p.1 ≠ k)) = List.lookup k' m := by
  induction m with
  | nil => rfl
  | cons a t ih =>
    obtain ⟨a1, a2⟩ := a
    by_cases hak : a1 = k
    · subst hak
      rw [List.filter_cons_of_neg (by simp)]
      rw [ih, lookup_skip _ _ _ _ h]
    · rw [List.filter_cons_of_pos (by simp [hak])]
      by_cases hk'a : k' = a1
      · subst hk'a
        rw [lookup_head, lookup_head]
      · rw [lookup_skip _ _ _ _ hk'a, lookup_skip _ _ _ _ hk'a, ih]

theorem lookup_objSet_self {β : Type} (m : List (String × β)) (k : String) (v : β) :
    List.lookup k (objSet m k v) = some v := by
  unfold objSet
  rw [lookup_head]

theorem lookup_objSet_ne {β : Type} (m : List (String × β)) (k k' : String) (v : β)
    (h : k' ≠ k) : List.lookup k' (objSet m k v) = List.lookup k' m := by
  unfold objSet
  rw [lookup_skip _ _ _ _ h, lookup_filter_ne _ _ _ h]

theorem lookup_map_custom {α : Type} (m : List (String × α)) (k : String) :
    List.lookup k (m.map (fun p => (p.1, (ClaimVal.custom p.2 : ClaimVal α)))) =
      (List.lookup k m).map (fun v => (ClaimVal.custom v : ClaimVal α)) := by
  induction m with
  | nil => rfl
  | cons a t ih =>
    obtain ⟨a1, a2⟩ := a
    by_cases hk : k = a1
    · subst hk
      simp only [List.map_cons, lookup_head]
      rfl
    · simp only [List.map_cons, lookup_skip _ _ _ _ hk, ih]

theorem lookup_payload_exp {α : Type} (c : List (String × ClaimVal α)) (i a s : String)
    (n d : Nat) : List.lookup "exp" (payloadOf c i a s n d) = some (.num (n + d)) := by
  unfold payloadOf
  rw [lookup_objSet_self]

theorem lookup_payload_sub {α : Type} (c : List (String × ClaimVal α)) (i a s : String)
    (n d : Nat) : List.lookup "sub" (payloadOf c i a s n d) = some (.str s) := by
  unfold payloadOf
  rw [lookup_objSet_ne _ _ _ _ (by decide), lookup_objSet_self]

theorem lookup_payload_aud {α : Type} (c : List (String × ClaimVal α)) (i a s : String)
    (n d : Nat) : List.lookup "aud" (payloadOf c i a s n d) = some (.str a) := by
  unfold payloadOf
  rw [lookup_objSet_ne _ _ _ _ (by decide), lookup_objSet_ne _ _ _ _ (by decide),
    lookup_objSet_self]

theorem lookup_payload_iss {α : Type} (c : List (String × ClaimVal α)) (i a s : String)
    (n d : Nat) : List.lookup "iss" (payloadOf c i a s n d) = some (.str i) := by
  unfold payloadOf
  rw [lookup_objSet_ne _ _ _ _ (by decide), lookup_objSet_ne _ _ _ _ (by decide),
    lookup_objSet_ne _ _ _ _ (by decide), lookup_objSet_self]

theorem lookup_payload_iat {α : Type} (c : List (String × ClaimVal α)) (i a s : String)
    (n d : Nat) : List.lookup "iat" (payloadOf c i a s n d) = some (.num n) := by
  unfold payloadOf
  rw [lookup_objSet_ne _ _ _ _ (by decide), lookup_objSet_ne _ _ _ _ (by decide),
    lookup_objSet_ne _ _ _ _ (by decide), lookup_objSet_ne _ _ _ _ (by decide),
    lookup_objSet_self]

theorem lookup_payload_other {α : Type} (c : List (String × ClaimVal α)) (i a s : String)
    (n d : Nat) (k : String) (hk : k ∉ (["iss", "sub", "aud", "exp", "iat"] : List String)) :
    List.lookup k (payloadOf c i a s n d) = List.lookup k c := by
  simp only [List.mem_cons, List.not_mem_nil, or_false, not_or] at hk
  obtain ⟨h1, h2, h3, h4, h5⟩ := hk
  unfold payloadOf
  rw [lookup_objSet_ne _ _ _ _ h4, lookup_objSet_ne _ _ _ _ h2,
    lookup_objSet_ne _ _ _ _ h3, lookup_objSet_ne _ _ _ _ h1,
    lookup_objSet_ne _ _ _ _ h5]

theorem jsTruthy_false_cases (o : Option String) (h : jsTruthyOpt o = false) :
    o = none ∨ o = some "" := by
  cases o with
  | none => exact Or.inl rfl
  | some s =>
    right
    simp [jsTruthyOpt] at h
    rw [h]

theorem jsTruthy_true_cases (o : Option String) (h : jsTruthyOpt o = true) :
    ∃ s, o = some s ∧ s ≠ "" := by
  cases o with
  | none => simp [jsTruthyOpt] at h
  | some s =>
    refine ⟨s, rfl, ?_⟩
    simp [jsTruthyOpt] at h
    exact h

theorem mint_ok_dest {α : Type} {env : MintEnv} {auth : Option String}
    {bp : Option (MintBody α)} {now : Nat} {p : List (String × ClaimVal α)} {e : String}
    (h : mintHandler α env auth bp now = .ok p e) :
    ∃ body subj aud d, bp = some body ∧ body.subject = some subj ∧ subj ≠ "" ∧
      resolvedAudience env body = some aud ∧ aud ≠ "" ∧
      durSecs (resolvedExp env) = some d ∧ env.signFails = false ∧
      e = resolvedExp env ∧
      p = payloadOf ((body.claims.getD []).map
            (fun q => (q.1, (ClaimVal.custom q.2 : ClaimVal α))))
          env.ISSUER_URL aud subj now d := by
  unfold mintHandler at h
  split at h
  · exact absurd h (by simp)
  split at h
  · exact absurd h (by simp)
  split at h
  · exact absurd h (by simp)
  split at h
  · exact absurd h (by simp)
  next body =>
    split at h
    · exact absurd h (by simp)
    next subj hsubj =>
      split at h
      · exact absurd h (by simp)
      next hsne =>
        split at h
        · exact absurd h (by simp)
        next aud haud =>
          split at h
          · exact absurd h (by simp)
          next hane =>
            split at h
            · exact absurd h (by simp)
            next d hdur =>
              split at h
              · exact absurd h (by simp)
              next hsf =>
                injection h with hp he
                exact ⟨body, subj, aud, d, rfl, hsubj, hsne, haud, hane, hdur,
                  by simp_all, he.symm, hp.symm⟩

/-- C3: when no MINT_API_KEY is configured, every mint request is answered
with the 503 service-misconfiguration error and no token is minted, whatever
Authorization header, body or time the caller supplies. -/
theorem mint_unset_key_503 (α : Type) (env : MintEnv) (h : env.MINT_API_KEY = none)
    (auth : Option String) (bp : Option (MintBody α)) (now : Nat) :
    mintHandler α env auth bp now =
      .err 503 "Service not configured: MINT_API_KEY required" := by
  unfold mintHandler
  rw [h]
  rfl

/-- C3 witness: the 503 error on a concrete keyless deployment. -/
theorem mint_unset_key_503_witness :
    mintHandler Nat envNoKey none none 0 =
      .err 503 "Service not configured: MINT_API_KEY required" :=
  mint_unset_key_503 Nat envNoKey rfl none none 0

/-- C4: every successfully minted payload carries iat equal to the minting
time, exp equal to iat plus the seconds denoted by the resolved expiration
string (the configured TOKEN_EXPIRATION or its default 15m), sub equal to
the request subject and aud equal to the resolved audience; with
TOKEN_EXPIRATION unset the difference exp minus iat is exactly 900. -/
theorem mint_token_time_and_claims (α : Type) (env : MintEnv) (auth : Option String)
    (body : MintBody α) (now : Nat) (p : List (String × ClaimVal α)) (e : String)
    (h : mintHandler α env auth (some body) now = .ok p e) :
    ∃ subj aud d, body.subject = some subj ∧ resolvedAudience env body = some aud ∧
      durSecs (resolvedExp env) = some d ∧
      List.lookup "iat" p = some (.num now) ∧
      List.lookup "exp" p = some (.num (now + d)) ∧
      List.lookup "sub" p = some (.str subj) ∧
      List.lookup "aud" p = some (.str aud) ∧
      (env.TOKEN_EXPIRATION = none → d = 900) := by
  obtain ⟨body', subj, aud, d, hbp, hsubj, hsne, haud, hane, hdur, hsf, he, hp⟩ :=
    mint_ok_dest h
  have hbb : body = body' := Option.some.inj hbp
  subst hbb
  subst hp
  refine ⟨subj, aud, d, hsubj, haud, hdur, lookup_payload_iat _ _ _ _ _ _,
    lookup_payload_exp _ _ _ _ _ _, lookup_payload_sub _ _ _ _ _ _,
    lookup_payload_aud _ _ _ _ _ _, ?_⟩
  intro hte
  have hre : resolvedExp env = "15m" := by
    unfold resolvedExp
    rw [hte]
  rw [hre] at hdur
  exact (Option.some.inj ((show durSecs "15m" = some 900 from rfl).symm.trans hdur)).symm

/-- C4 witness: the concrete scenario of a mint under the default expiration
at epoch second 0. -/
theorem mint_token_time_and_claims_witness :
    ∃ subj aud d, bodySvc.subject = some subj ∧ resolvedAudience envK bodySvc = some aud ∧
      durSecs (resolvedExp envK) = some d ∧
      List.lookup "iat" payloadSvc = some (.num 0) ∧
      List.lookup "exp" payloadSvc = some (.num (0 + d)) ∧
      List.lookup "sub" payloadSvc = some (.str subj) ∧
      List.lookup "aud" payloadSvc = some (.str aud) ∧
      (envK.TOKEN_EXPIRATION = none → d = 900) :=
  mint_token_time_and_claims Nat envK (some "Bearer k") bodySvc 0 payloadSvc "15m" (by decide)

/-- C5: a mint request that supplies no truthy audience against a deployment
with no truthy default audience is answered with an error and never with a
token; moreover every minted payload carries a non-empty aud claim, so an
unscoped token is never issued. -/
theorem mint_no_audience (α : Type) :
    (∀ (env : MintEnv) (auth : Option String) (body : MintBody α) (now : Nat),
      jsTruthyOpt body.audience = false → jsTruthyOpt env.ALLOWED_AUDIENCE = false →
      ∃ st msg, mintHandler α env auth (some body) now = .err st msg) ∧
    (∀ (env : MintEnv) (auth : Option String) (bp : Option (MintBody α)) (now : Nat)
       (p : List (String × ClaimVal α)) (e : String),
      mintHandler α env auth bp now = .ok p e →
      ∃ a, a ≠ "" ∧ List.lookup "aud" p = some (.str a)) := by
  constructor
  · intro env auth body now h1 h2
    cases hr : mintHandler α env auth (some body) now with
    | err st msg => exact ⟨st, msg, rfl⟩
    | ok p e =>
      exfalso
      obtain ⟨body', subj, aud, d, hbp, hsubj, hsne, haud, hane, hdur, hsf, he, hp⟩ :=
        mint_ok_dest hr
      have hbb : body = body' := Option.some.inj hbp
      subst hbb
      unfold resolvedAudience at haud
      rw [if_neg (by simp [h1])] at haud
      rw [haud] at h2
      simp [jsTruthyOpt] at h2
      exact hane h2
  · intro env auth bp now p e h
    obtain ⟨body', subj, aud, d, hbp, hsubj, hsne, haud, hane, hdur, hsf, he, hp⟩ :=
      mint_ok_dest h
    subst hp
    exact ⟨aud, hane, lookup_payload_aud _ _ _ _ _ _⟩

/-- C5 witness: an audience-free request against a deployment without a
default audience is answered with an error. -/
theorem mint_no_audience_witness :
    ∃ st msg, mintHandler Nat envK none (some ⟨some "s", none, none⟩) 0 = .err st msg :=
  (mint_no_audience Nat).1 envK none ⟨some "s", none, none⟩ 0 (by decide) (by decide)

/-- C6 counterexample: against a deployment with no MINT_API_KEY, a request
whose body lacks a subject is answered with status 503, which is not a
400-class status, so a missing subject does not always yield a 400-class
error. -/
theorem mint_missing_subject_cex :
    mintHandler Nat envNoKey (some "Bearer right-key") (some ⟨none, some "svc-b", none⟩) 0 =
      .err 503 "Service not configured: MINT_API_KEY required" ∧
    ¬(400 ≤ 503 ∧ 503 < 500) :=
  ⟨by decide, by decide⟩

/-- C6 amended: a mint request whose body lacks a truthy subject never yields
a token; and whenever the deployment has an API key configured, the caller
presents that key, and the signing key loads, such a request is rejected with
exactly the 400 missing-subject error; in a misconfigured or unauthorized
setting the earlier 503, 401 or 500 error is returned instead, still without
a token. -/
theorem mint_missing_subject (α : Type) :
    (∀ (env : MintEnv) (auth : Option String) (body : MintBody α) (now : Nat),
      jsTruthyOpt body.subject = false →
      ∃ st msg, mintHandler α env auth (some body) now = .err st msg) ∧
    (∀ (env : MintEnv) (auth : Option String) (body : MintBody α) (now : Nat),
      jsTruthyOpt env.MINT_API_KEY = true →
      jsTruthyOpt (apiKeyOf auth) = true → apiKeyOf auth = env.MINT_API_KEY →
      env.keyLoadFails = false →
      jsTruthyOpt body.subject = false →
      mintHandler α env auth (some body) now = .err 400 "Missing required field: subject") := by
  constructor
  · intro env auth body now h1
    cases hr : mintHandler α env auth (some body) now with
    | err st msg => exact ⟨st, msg, rfl⟩
    | ok p e =>
      exfalso
      obtain ⟨body', subj, aud, d, hbp, hsubj, hsne, _⟩ := mint_ok_dest hr
      have hbb : body = body' := Option.some.inj hbp
      subst hbb
      rw [hsubj] at h1
      simp [jsTruthyOpt] at h1
      exact hsne h1
  · intro env auth body now hk ha1 ha2 hkl hs
    simp only [mintHandler, hk, ha1, ha2, hkl]
    rcases jsTruthy_false_cases _ hs with hn | hn
    · simp [hn]
    · simp [hn]

/-- C6 witness: the 400 missing-subject error on a healthy authenticated
deployment. -/
theorem mint_missing_subject_witness :
    mintHandler Nat envK (some "Bearer k") (some ⟨none, some "svc-b", none⟩) 0 =
      .err 400 "Missing required field: subject" :=
  (mint_missing_subject Nat).2 envK (some "Bearer k") ⟨none, some "svc-b", none⟩ 0
    (by decide) (by decide) (by decide) rfl rfl

/-- C7: whatever payload a mint call signs, every claim key outside iss, sub,
aud, exp and iat maps to exactly the value the caller supplied for it (and to
nothing when the caller did not supply it), so caller claims pass through
verbatim and the issuer adds no claims beyond the five registered ones. -/
theorem mint_claims_verbatim (α : Type) (env : MintEnv) (auth : Option String)
    (body : MintBody α) (now : Nat) (p : List (String × ClaimVal α)) (e : String)
    (k : String) (h : mintHandler α env auth (some body) now = .ok p e)
    (hk : k ∉ (["iss", "sub", "aud", "exp", "iat"] : List String)) :
    List.lookup k p = (List.lookup k (body.claims.getD [])).map
      (fun v => (ClaimVal.custom v : ClaimVal α)) := by
  obtain ⟨body', subj, aud, d, hbp, hsubj, hsne, haud, hane, hdur, hsf, he, hp⟩ :=
    mint_ok_dest h
  have hbb : body = body' := Option.some.inj hbp
  subst hbb
  subst hp
  rw [lookup_payload_other _ _ _ _ _ _ _ hk, lookup_map_custom]

/-- C7 witness: a concrete custom claim passes through, on the payload minted
for bodyRole. -/
theorem mint_claims_verbatim_witness :
    List.lookup "role" payloadRole = (List.lookup "role" (bodyRole.claims.getD [])).map
      (fun v => (ClaimVal.custom v : ClaimVal Nat)) :=
  mint_claims_verbatim Nat envK (some "Bearer k") bodyRole 5 payloadRole "15m" "role"
    (by decide) (by decide)

/-- C8 counterexample: in the webhook worker, a JSON.parse failure is caught
and its exception message is serialized into the 500 response body, so the
underlying exception text does reach the caller. -/
theorem webhook_error_echo_cex :
    webhookTail String (.error "Unexpected token x in JSON at position 0") none
      (fun _ => (200, .accepted "ok")) =
      (500, .errBody "Unexpected token x in JSON at position 0") := rfl

/-- C8 amended: the mint handler only ever returns error messages drawn from
its fixed list of generic strings, and the JWKS handler only the fixed
generic JWKS failure string; the webhook handler however echoes the
exception message of a failed body parse into its 500 response body. -/
theorem generic_error_messages :
    (∀ (α : Type) (env : MintEnv) (auth : Option String) (bp : Option (MintBody α))
       (now st : Nat) (msg : String),
      mintHandler α env auth bp now = .err st msg → msg ∈ mintErrorMessages) ∧
    (∀ (b : Bool) (km : String) (st : Nat) (msg : String),
      jwksHandler b km = (st, .errResp msg) → msg = "Failed to generate JWKS") ∧
    (∀ (α : Type) (m : String) (et : Option String) (hpr : α → Nat × WebhookResp),
      webhookTail α (.error m) et hpr = (500, .errBody m)) := by
  refine ⟨?_, ?_, ?_⟩
  · intro α env auth bp now st msg h
    unfold mintHandler at h
    split at h
    · injection h with h1 h2
      subst h2
      decide
    split at h
    · injection h with h1 h2
      subst h2
      decide
    split at h
    · injection h with h1 h2
      subst h2
      decide
    split at h
    · injection h with h1 h2
      subst h2
      decide
    next body =>
      split at h
      · injection h with h1 h2
        subst h2
        decide
      next subj hsubj =>
        split at h
        · injection h with h1 h2
          subst h2
          decide
        next hsne =>
          split at h
          · injection h with h1 h2
            subst h2
            decide
          next aud haud =>
            split at h
            · injection h with h1 h2
              subst h2
              decide
            next hane =>
              split at h
              · injection h with h1 h2
                subst h2
                decide
              next d hdur =>
                split at h
                · injection h with h1 h2
                  subst h2
                  decide
                next hsf => exact absurd h (by simp)
  · intro b km st msg h
    cases b with
    | false => simp [jwksHandler] at h
    | true =>
      simp only [jwksHandler, if_pos rfl] at h
      injection h with h1 h2
      injection h2 with h3
      exact h3.symm
  · intro α m et hpr
    rfl

/-- C8 witness: a concrete mint error message is one of the generic ones. -/
theorem generic_error_messages_witness :
    "Service not configured: MINT_API_KEY required" ∈ mintErrorMessages :=
  generic_error_messages.1 Nat envNoKey none none 0 503
    "Service not configured: MINT_API_KEY required" (by decide)

/-- C10 counterexample: a request supplying the empty-string audience against
a deployment with no default audience and no MINT_API_KEY is rejected with
status 503, not with the 400 error the claim requires. -/
theorem mint_empty_audience_cex :
    mintHandler Nat envNoKey (some "Bearer k") (some ⟨some "svc-a", some "", none⟩) 0 =
      .err 503 "Service not configured: MINT_API_KEY required" ∧ (503 : Nat) ≠ 400 :=
  ⟨by decide, by decide⟩

/-- C10 amended: a body audience of the empty string is treated exactly like
an absent audience, the handler behaving identically on the two requests (in
particular falling back to the configured default); when additionally the
deployment is authenticated and healthy, the subject is truthy and no truthy
default audience exists, the request is rejected with the 400 missing-audience
error; and no minted payload ever carries an empty aud claim. -/
theorem mint_empty_audience (α : Type) :
    (∀ (env : MintEnv) (auth : Option String) (body : MintBody α) (now : Nat),
      mintHandler α env auth (some { body with audience := some "" }) now =
        mintHandler α env auth (some { body with audience := none }) now) ∧
    (∀ (env : MintEnv) (auth : Option String) (body : MintBody α) (now : Nat),
      jsTruthyOpt env.MINT_API_KEY = true →
      jsTruthyOpt (apiKeyOf auth) = true → apiKeyOf auth = env.MINT_API_KEY →
      env.keyLoadFails = false → jsTruthyOpt body.subject = true →
      body.audience = some "" → jsTruthyOpt env.ALLOWED_AUDIENCE = false →
      mintHandler α env auth (some body) now =
        .err 400 "Missing required field: audience (or set ALLOWED_AUDIENCE)") ∧
    (∀ (env : MintEnv) (auth : Option String) (bp : Option (MintBody α)) (now : Nat)
       (p : List (String × ClaimVal α)) (e : String),
      mintHandler α env auth bp now = .ok p e →
      List.lookup "aud" p ≠ some (.str "")) := by
  refine ⟨?_, ?_, ?_⟩
  · intro env auth body now
    rfl
  · intro env auth body now hk ha1 ha2 hkl hs haudE hall
    simp only [mintHandler, hk, ha1, ha2, hkl]
    obtain ⟨s, hsub, hsne⟩ := jsTruthy_true_cases _ hs
    have hra : resolvedAudience env body = env.ALLOWED_AUDIENCE := by
      unfold resolvedAudience
      rw [haudE]
      rfl
    rcases jsTruthy_false_cases _ hall with hn | hn
    · simp [hsub, hsne, hra, hn]
    · simp [hsub, hsne, hra, hn]
  · intro env auth bp now p e h habs
    obtain ⟨body', subj, aud, d, hbp, hsubj, hsne, haud, hane, hdur, hsf, he, hp⟩ :=
      mint_ok_dest h
    subst hp
    rw [lookup_payload_aud] at habs
    have : ClaimVal.str aud = (ClaimVal.str "" : ClaimVal α) := Option.some.inj habs
    injection this with haudv
    exact hane haudv

/-- C10 witness: the empty-string audience with no default is rejected with
the 400 missing-audience error on a healthy authenticated deployment. -/
theorem mint_empty_audience_witness :
    mintHandler Nat envK (some "Bearer k") (some ⟨some "svc-a", some "", none⟩) 0 =
      .err 400 "Missing required field: audience (or set ALLOWED_AUDIENCE)" :=
  (mint_empty_audience Nat).2.1 envK (some "Bearer k") ⟨some "svc-a", some "", none⟩ 0
    (by decide) (by decide) (by decide) rfl (by decide) rfl rfl

end AutomationHub
